import Mathlib

/-! # `version.c`: the generator of `version.h`

A shallow embedding of `src/version.c`, the build-time tool that writes the
header `version.h` (compilation date, length of the source prefix, version of
the software), and the properties of it that the specification states.

Conventions of the embedding:

* A C string is modelled by the `String` whose UTF-8 encoding is the byte
  array before the terminating NUL.  `printf("%s")` copies those bytes, so it
  is concatenation; `strlen` counts bytes, so it is `String.utf8ByteSize`
  (and not `String.length`, which counts characters).
* The fields of `struct tm` are C integers, modelled in `Int`.  `localtime`
  is taken to return a result, as it does for every time whose year fits an
  `int`; it keeps `tm_year + 1900` inside the range of `int`, so the sum is
  taken in `Int`.
* A file holds bytes.  What `fprintf` sends to a file is the UTF-8 encoding
  of the text, `bytesOf`.
* A directory or a file is named by its identity, not by a path: the
  operating system decides where a path leads from a working directory
  (`Env.lookup`), so that two paths to one file give one key of `Sys.files`.
* The stream of `fopen` is buffered and its buffer holds the whole header, a
  few hundred bytes: `fprintf` stores the bytes and returns their number, and
  they reach the file in order when `fclose` flushes them, up to what the
  device accepts.
* The process state touched by `main` (working directory, files, the pending
  output of the streams, the two standard streams, the library calls made on
  the file system) is passed explicitly as a `Sys`.  What the operating system
  decides (the local time, where a path leads, which directory can be
  entered, which file can be opened, how much the output device accepts,
  whether the close succeeds) is an `Env`.
-/

namespace Version

/-! ## Data model -/

/-- The macro `VERSION_LOGICIEL` of `version.c`. -/
def VERSION_LOGICIEL : String := "1.0"

/-- The fields of `struct tm` that `main` reads. -/
structure Tm where
  tm_year : Int
  tm_mon : Int
  tm_mday : Int
  tm_hour : Int
  tm_min : Int
  tm_sec : Int
  tm_gmtoff : Int
  tm_zone : String

/-- A library call of `main` that concerns the file system, with its argument
as passed and its result. -/
inductive Call where
  | chdir (path : String) (result : Int)
  | fopen (name : String) (result : Option String)
  | fprintf (stream : String) (text : String) (result : Int)
  | fclose (stream : String) (result : Int)
  deriving DecidableEq, Repr

/-- The state of the process and of the file system.  Directories and files
are named by their identity. -/
structure Sys where
  /-- The working directory. -/
  cwd : String
  /-- The content of each file that exists. -/
  files : String → Option (List UInt8)
  /-- The bytes buffered in the stream open on a file and not yet flushed. -/
  pending : String → List UInt8
  stdout : String
  stderr : String
  calls : List Call

/-- What the operating system decides during one run. -/
structure Env where
  /-- The result of `*localtime(&t)` for `t = time(NULL)`. -/
  now : Tm
  /-- The directory or file a path leads to from a working directory, once
  `.`, `..`, repeated slashes and links are followed; for a name that does not
  exist yet, the file `fopen` would create. -/
  lookup : String → String → String
  /-- Whether `chdir` to this directory succeeds. -/
  enterable : String → Bool
  /-- Whether `fopen(_, "w")` of this file succeeds. -/
  creatable : String → Bool
  /-- The number of bytes the output file may hold, `none` when unlimited. -/
  quota : Option Nat
  /-- Whether `fclose` succeeds. -/
  closeOk : Bool

/-! ## The C library -/

/-- The conversion `%s` of `printf`; glibc prints `(null)` for a null
pointer. -/
def fmt_s : Option String → String
  | some s => s
  | none => "(null)"

/-- The conversions `%d` and `%ld` of `printf` with an optional `0` flag and a
minimal field width: a minus sign for a negative value, the decimal digits of
the magnitude, and padding up to the width (zeros between sign and digits with
the `0` flag, blanks on the left without it). -/
def fmtSigned (zeroFlag : Bool) (width : Nat) (v : Int) : String :=
  let sign : String := if v < 0 then "-" else ""
  let digits : String := Nat.repr v.natAbs
  let pad : Nat := width - (sign.length + digits.length)
  if zeroFlag then sign ++ String.mk (List.replicate pad '0') ++ digits
  else String.mk (List.replicate pad ' ') ++ sign ++ digits

/-- The conversion `%lu` of `printf`. -/
def fmt_lu (n : Nat) : String := Nat.repr n

/-- The function `strlen`: the number of bytes before the terminating NUL. -/
def strlen (s : String) : Nat := s.utf8ByteSize

/-- The bytes of a C string: the UTF-8 encoding of the text. -/
def bytesOf (s : String) : List UInt8 := s.data.flatMap String.utf8EncodeChar

/-- Whether the output device accepts these bytes as the content of the file. -/
def accepts (env : Env) (bytes : List UInt8) : Bool :=
  match env.quota with
  | none => true
  | some q => decide (bytes.length ≤ q)

/-- What the output device keeps of the bytes written to the file: all of
them, or the first ones up to its limit. -/
def kept (env : Env) (bytes : List UInt8) : List UInt8 :=
  match env.quota with
  | none => bytes
  | some q => bytes.take q

/-- Whether the output device accepts a text as the content of the file. -/
def fits (env : Env) (content : String) : Bool := accepts env (bytesOf content)

/-- The function `chdir`: `0` and the new working directory on success, `-1`
and the old one on failure. -/
def chdir (env : Env) (path : String) (s : Sys) : Int × Sys :=
  if env.enterable (env.lookup s.cwd path) then
    (0, { s with cwd := env.lookup s.cwd path, calls := s.calls ++ [Call.chdir path 0] })
  else
    (-1, { s with calls := s.calls ++ [Call.chdir path (-1)] })

/-- The function `fopen` with mode `"w"`: on success the file exists and is
empty, and the stream (named by the file it is open on) is returned with an
empty buffer; on failure the result is the null pointer. -/
def fopen_w (env : Env) (name : String) (s : Sys) : Option String × Sys :=
  let target := env.lookup s.cwd name
  if env.creatable target then
    (some target,
      { s with
        files := fun f => if f = target then some [] else s.files f,
        pending := fun f => if f = target then [] else s.pending f,
        calls := s.calls ++ [Call.fopen name (some target)] })
  else
    (none, { s with calls := s.calls ++ [Call.fopen name none] })

/-- The function `fprintf` on a file stream, after formatting: the bytes of
the text are stored in the buffer of the stream and their number is returned.
The buffer, of `BUFSIZ` bytes, is taken to hold the whole header, so that
nothing reaches the file before `fclose`. -/
def fprintf (fd : String) (text : String) (s : Sys) : Int × Sys :=
  ((text.utf8ByteSize : Int),
    { s with
      pending := fun f => if f = fd then s.pending fd ++ bytesOf text else s.pending f,
      calls := s.calls ++ [Call.fprintf fd text (text.utf8ByteSize : Int)] })

/-- The function `fclose`: the buffer is flushed to the file, which keeps what
the device accepts; the result is `0` when everything was written and the
close succeeded, `EOF` otherwise. -/
def fclose (env : Env) (fd : String) (s : Sys) : Int × Sys :=
  let data := (s.files fd).getD [] ++ s.pending fd
  let r : Int := if accepts env data && env.closeOk then 0 else -1
  (r,
    { s with
      files := fun f => if f = fd then some (kept env data) else s.files f,
      pending := fun f => if f = fd then [] else s.pending f,
      calls := s.calls ++ [Call.fclose fd r] })

/-- The function `printf`, after formatting. -/
def printf (text : String) (s : Sys) : Sys := { s with stdout := s.stdout ++ text }

/-- The function `fprintf` on `stderr`, after formatting. -/
def eprintf (text : String) (s : Sys) : Sys := { s with stderr := s.stderr ++ text }

/-! ## The texts `main` formats -/

/-- The usage message: `"Usage: %s <path to the src directory> <name of the output header file>\n"`. -/
def usageText (argv0 : Option String) : String :=
  "Usage: " ++ fmt_s argv0 ++ " <path to the src directory> <name of the output header file>\n"

/-- The diagnostic of a failed `chdir`:
`"Cannot change the current directory to \"%s\"\n"`. -/
def chdirErrorText (path_src : String) : String :=
  "Cannot change the current directory to \"" ++ path_src ++ "\"\n"

/-- The diagnostic of a failed `fopen`:
`"Cannot open the file \"%s\" for writing (path to \"src\": %s).\n"`. -/
def fopenErrorText (name_output path_src : String) : String :=
  "Cannot open the file \"" ++ name_output ++ "\" for writing (path to \"src\": "
    ++ path_src ++ ").\n"

/-- The value of `DATE`, between the quotes:
`"%d-%02d-%02d %02d:%02d:%02d %04ld (%s)"`. -/
def dateValue (tm : Tm) : String :=
  fmtSigned false 0 (tm.tm_year + 1900) ++ "-" ++
  fmtSigned true 2 (tm.tm_mon + 1) ++ "-" ++
  fmtSigned true 2 tm.tm_mday ++ " " ++
  fmtSigned true 2 tm.tm_hour ++ ":" ++
  fmtSigned true 2 tm.tm_min ++ ":" ++
  fmtSigned true 2 tm.tm_sec ++ " " ++
  fmtSigned true 4 tm.tm_gmtoff ++ " (" ++
  tm.tm_zone ++ ")"

/-- The third `fprintf` of the header. -/
def dateLine (tm : Tm) : String := "#define DATE \"" ++ dateValue tm ++ "\"\n"

/-- The fourth `fprintf` of the header: `"#define SRC_PREFIX_LENGTH %lu\n"`
with `strlen(path_src)`. -/
def prefixLine (path_src : String) : String :=
  "#define SRC_PREFIX_LENGTH " ++ fmt_lu (strlen path_src) ++ "\n"

/-- The fifth `fprintf` of the header: `"#define VERSION_LOGICIEL \"%s\"\n"`. -/
def versionLine : String := "#define VERSION_LOGICIEL \"" ++ VERSION_LOGICIEL ++ "\"\n"

/-! ## The program -/

/-- The function `main` of `version.c`.  `argv` holds the `argc` strings of the
command line; the results of the `fprintf` calls on the file and of `fclose`
are discarded, as in the source. -/
def main (env : Env) (argv : List String) (s : Sys) : Int × Sys :=
  if 3 ≠ argv.length then
    (1, printf (usageText argv.head?) s)
  else
    let path_src := argv.getD 1 ""
    let name_output := argv.getD 2 ""
    let tm := env.now
    let r := chdir env path_src s
    if 0 ≠ r.1 then
      (1, eprintf (chdirErrorText path_src) r.2)
    else
      match fopen_w env name_output r.2 with
      | (none, s1) => (1, eprintf (fopenErrorText name_output path_src) s1)
      | (some fd, s1) =>
        let s2 := (fprintf fd "#ifndef VERSION_H\n" s1).2
        let s3 := (fprintf fd "#define VERSION_H\n" s2).2
        let s4 := (fprintf fd (dateLine tm) s3).2
        let s5 := (fprintf fd (prefixLine path_src) s4).2
        let s6 := (fprintf fd versionLine s5).2
        let s7 := (fprintf fd "#endif\n" s6).2
        let s8 := (fclose env fd s7).2
        (0, s8)

/-! ## Notions used to state the properties -/

/-- The six texts `main` passes to `fprintf` on the output file, in order. -/
def headerWrites (path_src : String) (tm : Tm) : List String :=
  ["#ifndef VERSION_H\n", "#define VERSION_H\n", dateLine tm, prefixLine path_src,
    versionLine, "#endif\n"]

/-- The complete header: the six texts one after the other. -/
def headerText (path_src : String) (tm : Tm) : String :=
  "#ifndef VERSION_H\n" ++ "#define VERSION_H\n" ++ dateLine tm ++ prefixLine path_src ++
    versionLine ++ "#endif\n"

/-- The texts passed to `fprintf` on a file in a sequence of calls. -/
def written : List Call → List String
  | [] => []
  | Call.fprintf _ text _ :: cs => text :: written cs
  | _ :: cs => written cs

/-- The names passed to `fopen` in a sequence of calls. -/
def opened : List Call → List String
  | [] => []
  | Call.fopen name _ :: cs => name :: opened cs
  | _ :: cs => opened cs

/-- The source directory of a command line, `argv[1]`. -/
def srcOf (argv : List String) : String := argv.getD 1 ""

/-- The file `main` writes: where `argv[2]` leads from the directory where
`argv[1]` leads from the working directory of the process. -/
def targetOf (env : Env) (argv : List String) (s : Sys) : String :=
  env.lookup (env.lookup s.cwd (argv.getD 1 "")) (argv.getD 2 "")

/-- The number of positions of a text at which a pattern starts. -/
def countOcc (pat : List Char) : List Char → Nat
  | [] => 0
  | c :: cs => (if pat.isPrefixOf (c :: cs) then 1 else 0) + countOcc pat cs

/-- The number of occurrences of a pattern in a text. -/
def occurrences (pat text : String) : Nat := countOcc pat.data text.data

/-! ## Notions used in the proofs -/

/-- The state in which `main` starts to write: the directory is entered and the
output file is open and empty. -/
def afterOpen (env : Env) (p n : String) (s : Sys) : Sys :=
  { s with
    cwd := env.lookup s.cwd p,
    files := fun f => if f = env.lookup (env.lookup s.cwd p) n then some [] else s.files f,
    pending := fun f => if f = env.lookup (env.lookup s.cwd p) n then [] else s.pending f,
    calls := s.calls ++ [Call.chdir p 0] ++
      [Call.fopen n (some (env.lookup (env.lookup s.cwd p) n))] }

/-- The ten decimal digits. -/
def decimalDigits : List Char := ['0', '1', '2', '3', '4', '5', '6', '7', '8', '9']

/-- The characters a number is rendered with. -/
def numberChars : List Char := '-' :: ' ' :: decimalDigits

/-- The part of the value of `DATE` before the zone abbreviation. -/
def dateNumbers (tm : Tm) : String :=
  fmtSigned false 0 (tm.tm_year + 1900) ++ "-" ++
  fmtSigned true 2 (tm.tm_mon + 1) ++ "-" ++
  fmtSigned true 2 tm.tm_mday ++ " " ++
  fmtSigned true 2 tm.tm_hour ++ ":" ++
  fmtSigned true 2 tm.tm_min ++ ":" ++
  fmtSigned true 2 tm.tm_sec ++ " " ++
  fmtSigned true 4 tm.tm_gmtoff ++ " ("

/-- The characters of the value of `DATE` outside the zone abbreviation. -/
def dateChars : List Char := ':' :: '(' :: numberChars

/-! ## The rendering of the date, in the words of the specification -/

/-- The character of a decimal digit: `'0'` is the character 48. -/
def digit (k : Nat) : Char := Char.ofNat (48 + k)

/-- A number below a hundred in two digits. -/
def twoDigits (v : Int) : String :=
  String.mk [digit (v.toNat / 10), digit (v.toNat % 10)]

/-- A number below ten thousand in four digits. -/
def fourDigits (v : Int) : String :=
  String.mk [digit (v.toNat / 1000), digit (v.toNat / 100 % 10), digit (v.toNat / 10 % 10),
    digit (v.toNat % 10)]

/-- Digits preceded by the zeros that bring them to a width. -/
def zeroPadded (width : Nat) (digits : String) : String :=
  String.mk (List.replicate (width - digits.length) '0') ++ digits

/-- The offset as `%04ld` renders it: a minus sign only for a negative offset,
and zeros up to a total width of four characters, sign included. -/
def renderedOffset (off : Int) : String :=
  if off < 0 then "-" ++ zeroPadded 3 (Nat.repr off.natAbs)
  else zeroPadded 4 (Nat.repr off.natAbs)

/-- The offset as the specification describes it: a sign for either direction
and a magnitude of at least four digits. -/
def claimedOffset (off : Int) : String :=
  (if off < 0 then "-" else "+") ++ zeroPadded 4 (Nat.repr off.natAbs)

/-- The value of `DATE` as the specification describes it. -/
def claimedDateValue (tm : Tm) : String :=
  fourDigits (tm.tm_year + 1900) ++ "-" ++ twoDigits (tm.tm_mon + 1) ++ "-" ++
  twoDigits tm.tm_mday ++ " " ++ twoDigits tm.tm_hour ++ ":" ++ twoDigits tm.tm_min ++ ":" ++
  twoDigits tm.tm_sec ++ " " ++ claimedOffset tm.tm_gmtoff ++ " (" ++ tm.tm_zone ++ ")"

/-- The value of `DATE` as the specification describes it, the offset apart,
which is as `%04ld` renders it. -/
def amendedDateValue (tm : Tm) : String :=
  fourDigits (tm.tm_year + 1900) ++ "-" ++ twoDigits (tm.tm_mon + 1) ++ "-" ++
  twoDigits tm.tm_mday ++ " " ++ twoDigits tm.tm_hour ++ ":" ++ twoDigits tm.tm_min ++ ":" ++
  twoDigits tm.tm_sec ++ " " ++ renderedOffset tm.tm_gmtoff ++ " (" ++ tm.tm_zone ++ ")"

/-- The number of characters of a path, which the specification takes for
`SRC_PREFIX_LENGTH`. -/
def characterCount (path : String) : Nat := path.length

/-! ## Concrete runs -/

/-- A local time: 15 January 2024, 10:30:00, one hour east of Greenwich. -/
def exTm : Tm :=
  { tm_year := 124, tm_mon := 0, tm_mday := 15, tm_hour := 10, tm_min := 30, tm_sec := 0,
    tm_gmtoff := 3600, tm_zone := "CET" }

/-- The names between the slashes of a path. -/
def segments : List Char → List (List Char)
  | [] => [[]]
  | c :: cs =>
    match segments cs with
    | [] => [[c]]
    | seg :: rest => if c = '/' then [] :: seg :: rest else (c :: seg) :: rest

/-- The directories passed on the way along the names of a path, the last one
first: an empty name and `.` stay in place, `..` goes up. -/
def walk : List (List Char) → List (List Char) → List (List Char)
  | [], above => above
  | seg :: rest, above =>
    if seg = [] ∨ seg = ['.'] then walk rest above
    else if seg = ['.', '.'] then walk rest above.tail
    else walk rest (seg :: above)

/-- Where a path leads in a file system without links: the absolute path
without `.`, `..` and repeated slashes. -/
def lexical (cwd name : String) : String :=
  let full : List Char :=
    match name.data with
    | '/' :: _ => name.data
    | _ => cwd.data ++ '/' :: name.data
  match (walk (segments full) []).reverse.flatMap fun seg => '/' :: seg with
  | [] => "/"
  | cs => String.mk cs

/-- An environment without links in which every call succeeds. -/
def exEnv : Env :=
  { now := exTm, lookup := lexical, enterable := fun _ => true, creatable := fun _ => true,
    quota := none, closeOk := true }

/-- A process started in `/home/build`, with no file and empty streams. -/
def exSys : Sys :=
  { cwd := "/home/build", files := fun _ => none, pending := fun _ => [], stdout := "",
    stderr := "", calls := [] }

/-- The command line of the example of the specification. -/
def exArgv : List String := ["version", "./srcroot", "version.h"]

/-- The file the example writes. -/
def exTarget : String := "/home/build/srcroot/version.h"

/-- An environment in which no directory can be entered. -/
def noDirEnv : Env := { exEnv with enterable := fun _ => false }

/-- An environment in which no file can be opened for writing. -/
def readOnlyEnv : Env := { exEnv with creatable := fun _ => false }

/-- An environment whose zone abbreviation is `DATE`, as under `TZ=DATE0`. -/
def dateZoneEnv : Env := { exEnv with now := { exTm with tm_gmtoff := 0, tm_zone := "DATE" } }

/-- An environment whose output device accepts forty bytes. -/
def smallDiskEnv : Env := { exEnv with quota := some 40 }

/-- A process started in `/home/build` where the file of the example already
exists. -/
def oldSys : Sys :=
  { exSys with files := fun f => if f = exTarget then some (bytesOf "old content\n") else none }

/-- A local time five minutes west of Greenwich. -/
def westTm : Tm := { exTm with tm_gmtoff := -300, tm_zone := "XXX" }

/-- A command line whose source directory has an accented name. -/
def accentArgv : List String := ["version", "é", "version.h"]

/-- The ranges of the fields of `struct tm` for a year of four digits. -/
def inCalendar (tm : Tm) : Prop :=
  1000 ≤ tm.tm_year + 1900 ∧ tm.tm_year + 1900 ≤ 9999 ∧
  0 ≤ tm.tm_mon ∧ tm.tm_mon ≤ 11 ∧
  1 ≤ tm.tm_mday ∧ tm.tm_mday ≤ 31 ∧
  0 ≤ tm.tm_hour ∧ tm.tm_hour ≤ 23 ∧
  0 ≤ tm.tm_min ∧ tm.tm_min ≤ 59 ∧
  0 ≤ tm.tm_sec ∧ tm.tm_sec ≤ 60

/-! # Proofs -/

set_option maxRecDepth 100000

/-! ## The C library: basic facts -/

theorem bytesOf_append (a b : String) : bytesOf (a ++ b) = bytesOf a ++ bytesOf b := by
  simp [bytesOf, String.data_append, List.flatMap_append]

theorem kept_of_accepts (env : Env) (bytes : List UInt8) (h : accepts env bytes = true) :
    kept env bytes = bytes := by
  unfold accepts at h
  unfold kept
  cases hq : env.quota with
  | none => rfl
  | some q =>
    rw [hq] at h
    simp only [decide_eq_true_eq] at h
    exact List.take_of_length_le h

theorem kept_of_not_accepts (env : Env) (bytes : List UInt8) (h : accepts env bytes = false) :
    ∃ q, env.quota = some q ∧ q < bytes.length ∧ kept env bytes = bytes.take q := by
  unfold accepts at h
  unfold kept
  cases hq : env.quota with
  | none => rw [hq] at h; simp at h
  | some q =>
    rw [hq] at h
    simp only [decide_eq_false_iff_not, Nat.not_le] at h
    exact ⟨q, rfl, h, rfl⟩

theorem written_append (xs ys : List Call) : written (xs ++ ys) = written xs ++ written ys := by
  induction xs with
  | nil => rfl
  | cons c cs ih => cases c <;> simp [written, ih]

theorem opened_append (xs ys : List Call) : opened (xs ++ ys) = opened xs ++ opened ys := by
  induction xs with
  | nil => rfl
  | cons c cs ih => cases c <;> simp [opened, ih]

theorem fprintf_calls (fd t : String) (s : Sys) :
    (fprintf fd t s).2.calls = s.calls ++ [Call.fprintf fd t (t.utf8ByteSize : Int)] := rfl

theorem fprintf_files (fd t : String) (s : Sys) : (fprintf fd t s).2.files = s.files := rfl

theorem fprintf_pending (fd t : String) (s : Sys) :
    (fprintf fd t s).2.pending fd = s.pending fd ++ bytesOf t := by
  simp [fprintf]

/-! ## The three ways through `main` -/

theorem main_usage (env : Env) (argv : List String) (s : Sys) (h : argv.length ≠ 3) :
    main env argv s = (1, printf (usageText argv.head?) s) := by
  unfold main
  rw [if_pos (fun e => h e.symm)]

theorem main_chdir_fails (env : Env) (a0 p n : String) (s : Sys)
    (h : env.enterable (env.lookup s.cwd p) = false) :
    main env [a0, p, n] s =
      (1, eprintf (chdirErrorText p) { s with calls := s.calls ++ [Call.chdir p (-1)] }) := by
  simp [main, chdir, h]

theorem main_fopen_fails (env : Env) (a0 p n : String) (s : Sys)
    (h1 : env.enterable (env.lookup s.cwd p) = true)
    (h2 : env.creatable (env.lookup (env.lookup s.cwd p) n) = false) :
    main env [a0, p, n] s =
      (1, eprintf (fopenErrorText n p)
        { s with
          cwd := env.lookup s.cwd p,
          calls := s.calls ++ [Call.chdir p 0] ++ [Call.fopen n none] }) := by
  simp [main, chdir, fopen_w, h1, h2]

theorem main_opened (env : Env) (a0 p n : String) (s : Sys)
    (h1 : env.enterable (env.lookup s.cwd p) = true)
    (h2 : env.creatable (env.lookup (env.lookup s.cwd p) n) = true) :
    main env [a0, p, n] s =
      (0, (fclose env (env.lookup (env.lookup s.cwd p) n)
        (fprintf (env.lookup (env.lookup s.cwd p) n) "#endif\n"
        (fprintf (env.lookup (env.lookup s.cwd p) n) versionLine
        (fprintf (env.lookup (env.lookup s.cwd p) n) (prefixLine p)
        (fprintf (env.lookup (env.lookup s.cwd p) n) (dateLine env.now)
        (fprintf (env.lookup (env.lookup s.cwd p) n) "#define VERSION_H\n"
        (fprintf (env.lookup (env.lookup s.cwd p) n) "#ifndef VERSION_H\n"
          (afterOpen env p n s)).2).2).2).2).2).2).2) := by
  simp [main, chdir, fopen_w, h1, h2, afterOpen]

theorem main_opened_exit (env : Env) (a0 p n : String) (s : Sys)
    (h1 : env.enterable (env.lookup s.cwd p) = true)
    (h2 : env.creatable (env.lookup (env.lookup s.cwd p) n) = true) :
    (main env [a0, p, n] s).1 = 0 := by
  rw [main_opened env a0 p n s h1 h2]

theorem main_opened_written (env : Env) (a0 p n : String) (s : Sys)
    (h1 : env.enterable (env.lookup s.cwd p) = true)
    (h2 : env.creatable (env.lookup (env.lookup s.cwd p) n) = true) :
    written (main env [a0, p, n] s).2.calls = written s.calls ++ headerWrites p env.now := by
  rw [main_opened env a0 p n s h1 h2]
  simp [fclose, fprintf_calls, afterOpen, written_append, written, headerWrites]

theorem main_opened_files_other (env : Env) (a0 p n : String) (s : Sys)
    (h1 : env.enterable (env.lookup s.cwd p) = true)
    (h2 : env.creatable (env.lookup (env.lookup s.cwd p) n) = true)
    (f : String) (hf : f ≠ env.lookup (env.lookup s.cwd p) n) :
    (main env [a0, p, n] s).2.files f = s.files f := by
  rw [main_opened env a0 p n s h1 h2]
  simp [fclose, fprintf_files, afterOpen, hf]

theorem main_opened_files_kept (env : Env) (a0 p n : String) (s : Sys)
    (h1 : env.enterable (env.lookup s.cwd p) = true)
    (h2 : env.creatable (env.lookup (env.lookup s.cwd p) n) = true) :
    (main env [a0, p, n] s).2.files (env.lookup (env.lookup s.cwd p) n) =
      some (kept env (bytesOf (headerText p env.now))) := by
  rw [main_opened env a0 p n s h1 h2]
  simp [fclose, fprintf_files, fprintf_pending, afterOpen, headerText, bytesOf_append]
  rfl

theorem main_opened_files_target (env : Env) (a0 p n : String) (s : Sys)
    (h1 : env.enterable (env.lookup s.cwd p) = true)
    (h2 : env.creatable (env.lookup (env.lookup s.cwd p) n) = true)
    (hfit : fits env (headerText p env.now) = true) :
    (main env [a0, p, n] s).2.files (env.lookup (env.lookup s.cwd p) n) =
      some (bytesOf (headerText p env.now)) := by
  rw [main_opened_files_kept env a0 p n s h1 h2, kept_of_accepts env _ hfit]

/-! ## Decimal digits -/

theorem toDigitsCore_acc (fuel : Nat) : ∀ (n : Nat) (acc : List Char),
    Nat.toDigitsCore 10 fuel n acc = Nat.toDigitsCore 10 fuel n [] ++ acc := by
  induction fuel with
  | zero => intro n acc; simp [Nat.toDigitsCore]
  | succ fuel ih =>
    intro n acc
    simp only [Nat.toDigitsCore]
    by_cases h : n / 10 = 0
    · simp [h]
    · simp only [h, if_false]
      rw [ih (n / 10) (Nat.digitChar (n % 10) :: acc), ih (n / 10) [Nat.digitChar (n % 10)]]
      simp

theorem toDigitsCore_fuel (n : Nat) : ∀ (f g : Nat) (acc : List Char), n < f → n < g →
    Nat.toDigitsCore 10 f n acc = Nat.toDigitsCore 10 g n acc := by
  induction n using Nat.strong_induction_on with
  | _ n ih =>
    intro f g acc hf hg
    obtain ⟨f, rfl⟩ : ∃ k, f = k + 1 := ⟨f - 1, by omega⟩
    obtain ⟨g, rfl⟩ : ∃ k, g = k + 1 := ⟨g - 1, by omega⟩
    simp only [Nat.toDigitsCore]
    by_cases h0 : n / 10 = 0
    · simp [h0]
    · simp only [h0, if_false]
      exact ih (n / 10) (by omega) f g _ (by omega) (by omega)

theorem toDigits_small (n : Nat) (h : n < 10) : Nat.toDigits 10 n = [Nat.digitChar n] := by
  have h0 : n / 10 = 0 := by omega
  have h1 : n % 10 = n := by omega
  simp [Nat.toDigits, Nat.toDigitsCore, h0, h1]

theorem toDigits_step (n : Nat) (h : 10 ≤ n) :
    Nat.toDigits 10 n = Nat.toDigits 10 (n / 10) ++ [Nat.digitChar (n % 10)] := by
  have h0 : ¬ n / 10 = 0 := by omega
  have key : Nat.toDigitsCore 10 (n + 1) n [] =
      Nat.toDigitsCore 10 n (n / 10) [Nat.digitChar (n % 10)] := by
    simp only [Nat.toDigitsCore, h0, if_false]
  show Nat.toDigitsCore 10 (n + 1) n [] = Nat.toDigitsCore 10 (n / 10 + 1) (n / 10) [] ++ _
  rw [key, toDigitsCore_acc, toDigitsCore_fuel (n / 10) n (n / 10 + 1) [] (by omega) (by omega)]

theorem digitChar_mem (k : Nat) (h : k < 10) : Nat.digitChar k ∈ decimalDigits := by
  interval_cases k <;> decide

theorem toDigits_mem (n : Nat) : ∀ c ∈ Nat.toDigits 10 n, c ∈ decimalDigits := by
  induction n using Nat.strong_induction_on with
  | _ n ih =>
    intro c hc
    by_cases h : n < 10
    · rw [toDigits_small n h] at hc
      simp only [List.mem_singleton] at hc
      subst hc
      exact digitChar_mem n h
    · rw [toDigits_step n (by omega)] at hc
      rcases List.mem_append.mp hc with hc | hc
      · exact ih (n / 10) (by omega) c hc
      · simp only [List.mem_singleton] at hc
        subst hc
        exact digitChar_mem _ (by omega)

theorem repr_data (n : Nat) : (Nat.repr n).data = Nat.toDigits 10 n := rfl

/-! ## The rendering of numbers -/

theorem fmtSigned_data (z : Bool) (w : Nat) (v : Int) :
    (fmtSigned z w v).data =
      if z then
        (if v < 0 then ['-'] else []) ++
          List.replicate (w - ((if v < 0 then 1 else 0) + (Nat.toDigits 10 v.natAbs).length)) '0' ++
          Nat.toDigits 10 v.natAbs
      else
        List.replicate (w - ((if v < 0 then 1 else 0) + (Nat.toDigits 10 v.natAbs).length)) ' ' ++
          (if v < 0 then ['-'] else []) ++ Nat.toDigits 10 v.natAbs := by
  unfold fmtSigned
  by_cases hv : v < 0 <;> cases z <;>
    simp [hv, String.data_append, repr_data, String.length]

theorem fmtSigned_mem (z : Bool) (w : Nat) (v : Int) :
    ∀ c ∈ (fmtSigned z w v).data, c ∈ numberChars := by
  intro c hc
  rw [fmtSigned_data] at hc
  have hd : ∀ c ∈ Nat.toDigits 10 v.natAbs, c ∈ numberChars := fun c h =>
    List.mem_cons_of_mem _ (List.mem_cons_of_mem _ (toDigits_mem _ c h))
  have hs : ∀ c ∈ (if v < 0 then ['-'] else []), c ∈ numberChars := by
    intro c h
    split at h
    · simp only [List.mem_singleton] at h; subst h; decide
    · simp at h
  cases z
  · simp only [Bool.false_eq_true, if_false, List.mem_append] at hc
    rcases hc with (hc | hc) | hc
    · rw [List.mem_replicate] at hc; rw [hc.2]; decide
    · exact hs c hc
    · exact hd c hc
  · simp only [if_true, List.mem_append] at hc
    rcases hc with (hc | hc) | hc
    · exact hs c hc
    · rw [List.mem_replicate] at hc; rw [hc.2]; decide
    · exact hd c hc

/-! ## Counting occurrences -/

theorem isPrefixOf_sep (pat : List Char) (c : Char) (hc : c ∉ pat) :
    ∀ (zs ys : List Char), pat.isPrefixOf (zs ++ c :: ys) = pat.isPrefixOf zs := by
  induction pat with
  | nil => intro zs ys; simp [List.isPrefixOf]
  | cons b pat ih =>
    intro zs ys
    have hb : b ≠ c := fun e => hc (by simp [e])
    have hc2 : c ∉ pat := fun h => hc (List.mem_cons_of_mem _ h)
    cases zs with
    | nil => simp [List.isPrefixOf, hb]
    | cons z zs => simp [List.isPrefixOf, ih hc2 zs ys]

theorem countOcc_sep (pat : List Char) (c : Char) (hc : c ∉ pat) (hp : pat ≠ []) :
    ∀ (xs ys : List Char), countOcc pat (xs ++ c :: ys) = countOcc pat xs + countOcc pat ys := by
  intro xs ys
  induction xs with
  | nil =>
    have h := isPrefixOf_sep pat c hc [] ys
    have hn : pat.isPrefixOf [] = false := by
      cases pat with
      | nil => exact absurd rfl hp
      | cons b pat => rfl
    simp only [List.nil_append] at h ⊢
    simp [countOcc, h, hn]
  | cons x xs ih =>
    have h := isPrefixOf_sep pat c hc (x :: xs) ys
    simp only [List.cons_append] at h ⊢
    simp only [countOcc, h, ih]
    omega

theorem countOcc_skip (pat : List Char) (hp : pat ≠ []) (xs : List Char)
    (hx : ∀ c ∈ xs, c ∉ pat) (ys : List Char) :
    countOcc pat (xs ++ ys) = countOcc pat ys := by
  induction xs with
  | nil => rfl
  | cons x xs ih =>
    have hxp : x ∉ pat := hx x (List.mem_cons_self _ _)
    have h := isPrefixOf_sep pat x hxp [] (xs ++ ys)
    have hn : pat.isPrefixOf [] = false := by
      cases pat with
      | nil => exact absurd rfl hp
      | cons b pat => rfl
    rw [List.nil_append, hn] at h
    rw [List.cons_append, countOcc, h]
    simpa using ih (fun c hc => hx c (List.mem_cons_of_mem _ hc))

theorem headerText_data (p : String) (tm : Tm) :
    (headerText p tm).data =
      "#ifndef VERSION_H\n#define VERSION_H\n#define DATE ".data ++ '"' ::
        ((dateNumbers tm).data ++ (tm.tm_zone.data ++ ')' ::
          ("\"\n#define SRC_PREFIX_LENGTH".data ++ ' ' ::
            ((Nat.repr (strlen p)).data ++ '\n' ::
              "#define VERSION_LOGICIEL \"1.0\"\n#endif\n".data)))) := by
  simp only [headerText, dateLine, dateValue, prefixLine, versionLine, dateNumbers, fmt_lu,
    VERSION_LOGICIEL, String.data_append, List.append_assoc]
  rfl

theorem dateNumbers_mem (tm : Tm) : ∀ c ∈ (dateNumbers tm).data, c ∈ dateChars := by
  intro c hc
  have hn : ∀ z w v, c ∈ (fmtSigned z w v).data → c ∈ dateChars := fun z w v h =>
    List.mem_cons_of_mem _ (List.mem_cons_of_mem _ (fmtSigned_mem z w v c h))
  simp only [dateNumbers, String.data_append, List.mem_append] at hc
  rcases hc with ((((((((((((h|h)|h)|h)|h)|h)|h)|h)|h)|h)|h)|h)|h)|h <;>
    first
    | exact hn _ _ _ h
    | (simp only [List.mem_singleton] at h; subst h; decide)
    | (simp only [List.mem_cons, List.mem_singleton, List.not_mem_nil, or_false] at h
       rcases h with rfl | rfl <;> decide)

theorem countOcc_header (pat : List Char) (hp : pat ≠ [])
    (hd : ∀ c ∈ dateChars, c ∉ pat) (hq : '"' ∉ pat) (hc : ')' ∉ pat) (hn : '\n' ∉ pat)
    (p : String) (tm : Tm) :
    countOcc pat (headerText p tm).data =
      countOcc pat "#ifndef VERSION_H\n#define VERSION_H\n#define DATE ".data +
      countOcc pat tm.tm_zone.data +
      countOcc pat "\"\n#define SRC_PREFIX_LENGTH".data +
      countOcc pat "#define VERSION_LOGICIEL \"1.0\"\n#endif\n".data := by
  have hs : ' ' ∉ pat := hd ' ' (by decide)
  have hN : ∀ c ∈ (Nat.repr (strlen p)).data, c ∉ pat := fun c h =>
    hd c (List.mem_cons_of_mem _ (List.mem_cons_of_mem _ (List.mem_cons_of_mem _
      (List.mem_cons_of_mem _ (toDigits_mem _ c h)))))
  rw [headerText_data, countOcc_sep pat '"' hq hp,
    countOcc_skip pat hp _ (fun c h => hd c (dateNumbers_mem tm c h)),
    countOcc_sep pat ')' hc hp, countOcc_sep pat ' ' hs hp, countOcc_skip pat hp _ hN]
  have h0 := countOcc_sep pat '\n' hn hp [] "#define VERSION_LOGICIEL \"1.0\"\n#endif\n".data
  rw [List.nil_append] at h0
  rw [h0]
  simp only [countOcc]
  omega

theorem occurrences_DATE (p : String) (tm : Tm) :
    occurrences "DATE" (headerText p tm) = 1 + occurrences "DATE" tm.tm_zone := by
  unfold occurrences
  rw [countOcc_header "DATE".data (by decide) (by decide) (by decide) (by decide) (by decide)]
  have a : countOcc "DATE".data "#ifndef VERSION_H\n#define VERSION_H\n#define DATE ".data = 1 := by
    decide
  have b : countOcc "DATE".data "\"\n#define SRC_PREFIX_LENGTH".data = 0 := by decide
  have c : countOcc "DATE".data "#define VERSION_LOGICIEL \"1.0\"\n#endif\n".data = 0 := by decide
  omega

theorem occurrences_SRC (p : String) (tm : Tm) :
    occurrences "SRC_PREFIX_LENGTH" (headerText p tm) =
      1 + occurrences "SRC_PREFIX_LENGTH" tm.tm_zone := by
  unfold occurrences
  rw [countOcc_header "SRC_PREFIX_LENGTH".data (by decide) (by decide) (by decide) (by decide)
    (by decide)]
  have a : countOcc "SRC_PREFIX_LENGTH".data
      "#ifndef VERSION_H\n#define VERSION_H\n#define DATE ".data = 0 := by decide
  have b : countOcc "SRC_PREFIX_LENGTH".data "\"\n#define SRC_PREFIX_LENGTH".data = 1 := by
    decide
  have c : countOcc "SRC_PREFIX_LENGTH".data
      "#define VERSION_LOGICIEL \"1.0\"\n#endif\n".data = 0 := by decide
  omega

theorem occurrences_VERSION (p : String) (tm : Tm) :
    occurrences "VERSION_LOGICIEL" (headerText p tm) =
      1 + occurrences "VERSION_LOGICIEL" tm.tm_zone := by
  unfold occurrences
  rw [countOcc_header "VERSION_LOGICIEL".data (by decide) (by decide) (by decide) (by decide)
    (by decide)]
  have a : countOcc "VERSION_LOGICIEL".data
      "#ifndef VERSION_H\n#define VERSION_H\n#define DATE ".data = 0 := by decide
  have b : countOcc "VERSION_LOGICIEL".data "\"\n#define SRC_PREFIX_LENGTH".data = 0 := by
    decide
  have c : countOcc "VERSION_LOGICIEL".data
      "#define VERSION_LOGICIEL \"1.0\"\n#endif\n".data = 1 := by decide
  omega

theorem digitChar_eq_digit (k : Nat) (h : k < 10) : Nat.digitChar k = digit k := by
  interval_cases k <;> rfl

theorem fmtSigned_two (v : Int) (h0 : 0 ≤ v) (h1 : v ≤ 99) :
    fmtSigned true 2 v = twoDigits v := by
  apply String.ext
  obtain ⟨k, rfl⟩ : ∃ k : Nat, v = (k : Int) := ⟨v.toNat, by omega⟩
  have hk : k ≤ 99 := by omega
  have hneg : ¬ ((k : Int) < 0) := by omega
  rw [fmtSigned_data]
  simp only [hneg, if_false, if_true, Int.natAbs_ofNat, Int.toNat_ofNat, twoDigits]
  by_cases hs : k < 10
  · have e1 : k / 10 = 0 := by omega
    have e2 : k % 10 = k := by omega
    rw [toDigits_small k hs, e1, e2, digitChar_eq_digit k hs]
    rfl
  · rw [toDigits_step k (by omega), toDigits_small (k / 10) (by omega),
      digitChar_eq_digit _ (by omega), digitChar_eq_digit (k % 10) (by omega)]
    rfl

theorem fmtSigned_four (v : Int) (h0 : 1000 ≤ v) (h1 : v ≤ 9999) :
    fmtSigned false 0 v = fourDigits v := by
  apply String.ext
  obtain ⟨k, rfl⟩ : ∃ k : Nat, v = (k : Int) := ⟨v.toNat, by omega⟩
  have hk : 1000 ≤ k ∧ k ≤ 9999 := by omega
  have hneg : ¬ ((k : Int) < 0) := by omega
  rw [fmtSigned_data]
  simp only [hneg, if_false, Int.natAbs_ofNat, Int.toNat_ofNat, fourDigits, Bool.false_eq_true]
  have e3 : k / 10 / 10 / 10 = k / 1000 := by omega
  have e2 : k / 10 / 10 % 10 = k / 100 % 10 := by omega
  rw [toDigits_step k (by omega), toDigits_step (k / 10) (by omega),
    toDigits_step (k / 10 / 10) (by omega), toDigits_small (k / 10 / 10 / 10) (by omega),
    digitChar_eq_digit _ (by omega), digitChar_eq_digit (k % 10) (by omega),
    digitChar_eq_digit (k / 10 % 10) (by omega), digitChar_eq_digit (k / 10 / 10 % 10) (by omega),
    e3, e2]
  rfl

theorem fmtSigned_offset (v : Int) : fmtSigned true 4 v = renderedOffset v := by
  apply String.ext
  rw [fmtSigned_data]
  unfold renderedOffset zeroPadded
  by_cases hv : v < 0
  · simp only [hv, if_true, String.data_append, repr_data, String.length]
    have : 4 - (1 + (Nat.toDigits 10 v.natAbs).length) = 3 - (Nat.toDigits 10 v.natAbs).length := by
      omega
    rw [this]
    rfl
  · simp only [hv, if_false, if_true, String.data_append, repr_data, String.length]
    simp

/-! ## Lengths and exit status -/

theorem utf8Size_ascii (c : Char) (h : c.toNat < 128) : c.utf8Size = 1 := by
  have hv : c.val ≤ 127 := by
    show c.val.toNat ≤ 127
    have : c.toNat = c.val.toNat := rfl
    omega
  simp [Char.utf8Size, hv]

theorem utf8Len_ascii (cs : List Char) (h : ∀ c ∈ cs, c.toNat < 128) :
    String.utf8Len cs = cs.length := by
  induction cs with
  | nil => rfl
  | cons c cs ih =>
    rw [String.utf8Len_cons, ih (fun d hd => h d (List.mem_cons_of_mem _ hd)),
      utf8Size_ascii c (h c (List.mem_cons_self _ _)), List.length_cons]

theorem strlen_ascii (p : String) (h : ∀ c ∈ p.data, c.toNat < 128) : strlen p = p.length := by
  cases p with
  | mk cs => exact utf8Len_ascii cs h

theorem main_exit_zero_iff (env : Env) (argv : List String) (s : Sys) :
    (main env argv s).1 = 0 ↔
      argv.length = 3 ∧ env.enterable (env.lookup s.cwd (srcOf argv)) = true ∧
        env.creatable (targetOf env argv s) = true := by
  by_cases hl : argv.length = 3
  · match argv, hl with
    | [a0, p, n], _ =>
      simp only [srcOf, targetOf, List.getD_cons_succ, List.getD_cons_zero, List.length_cons,
        List.length_nil, true_and]
      cases h1 : env.enterable (env.lookup s.cwd p) with
      | false => rw [main_chdir_fails env a0 p n s h1]; simp
      | true =>
        cases h2 : env.creatable (env.lookup (env.lookup s.cwd p) n) with
        | false => rw [main_fopen_fails env a0 p n s h1 h2]; simp
        | true => rw [main_opened env a0 p n s h1 h2]; simp
  · rw [main_usage env argv s hl]; simp [hl]

theorem main_exit_cases (env : Env) (argv : List String) (s : Sys) :
    (main env argv s).1 = 0 ∨ (main env argv s).1 = 1 := by
  by_cases hl : argv.length = 3
  · match argv, hl with
    | [a0, p, n], _ =>
      cases h1 : env.enterable (env.lookup s.cwd p) with
      | false => rw [main_chdir_fails env a0 p n s h1]; simp
      | true =>
        cases h2 : env.creatable (env.lookup (env.lookup s.cwd p) n) with
        | false => rw [main_fopen_fails env a0 p n s h1 h2]; simp
        | true => rw [main_opened env a0 p n s h1 h2]; simp
  · rw [main_usage env argv s hl]; simp

theorem main_files_unchanged_of_fail (env : Env) (argv : List String) (s : Sys)
    (h : (main env argv s).1 ≠ 0) : (main env argv s).2.files = s.files := by
  by_cases hl : argv.length = 3
  · match argv, hl with
    | [a0, p, n], _ =>
      cases h1 : env.enterable (env.lookup s.cwd p) with
      | false => rw [main_chdir_fails env a0 p n s h1]; rfl
      | true =>
        cases h2 : env.creatable (env.lookup (env.lookup s.cwd p) n) with
        | false => rw [main_fopen_fails env a0 p n s h1 h2]; rfl
        | true => exact absurd (main_opened_exit env a0 p n s h1 h2) h
  · rw [main_usage env argv s hl]; rfl

theorem main_files_other (env : Env) (argv : List String) (s : Sys) (q : String)
    (hq : q ≠ targetOf env argv s) : (main env argv s).2.files q = s.files q := by
  by_cases h : (main env argv s).1 = 0
  · have h3 := (main_exit_zero_iff env argv s).mp h
    match argv, h3 with
    | [a0, p, n], ⟨_, h1, h2⟩ => exact main_opened_files_other env a0 p n s h1 h2 q hq
  · rw [main_files_unchanged_of_fail env argv s h]

/-! # The claims -/

/-- C1: when the command line does not hold exactly two arguments (`argc` is
not 3), `main` returns 1, appends to standard output the usage line and only
it, writes nothing to standard error, keeps the working directory, makes no
call on the file system (no `chdir`, no `fopen`) and leaves every file as it
is. -/
theorem usage_when_argc_is_not_three (env : Env) (argv : List String) (s : Sys)
    (h : argv.length ≠ 3) :
    (main env argv s).1 = 1 ∧
    (main env argv s).2.stdout = s.stdout ++ ("Usage: " ++ fmt_s argv.head? ++
      " <path to the src directory> <name of the output header file>\n") ∧
    (main env argv s).2.stderr = s.stderr ∧
    (main env argv s).2.cwd = s.cwd ∧
    (main env argv s).2.calls = s.calls ∧
    (main env argv s).2.files = s.files := by
  rw [main_usage env argv s h]
  exact ⟨rfl, rfl, rfl, rfl, rfl, rfl⟩

/-- C1, witness: one argument only. -/
theorem usage_when_argc_is_not_three_witness :
    ["version", "./srcroot"].length ≠ 3 ∧
    (main exEnv ["version", "./srcroot"] exSys).1 = 1 ∧
    (main exEnv ["version", "./srcroot"] exSys).2.stdout =
      "Usage: version <path to the src directory> <name of the output header file>\n" :=
  ⟨by decide,
    (usage_when_argc_is_not_three exEnv ["version", "./srcroot"] exSys (by decide)).1,
    (usage_when_argc_is_not_three exEnv ["version", "./srcroot"] exSys (by decide)).2.1⟩

/-- C2, counterexample: on a device that accepts forty bytes the directory
is entered and the file is opened, and the file holds the first forty bytes of
the header, cut in the third line, not six lines. -/
theorem six_lines_cut_by_the_device :
    smallDiskEnv.enterable (smallDiskEnv.lookup exSys.cwd "./srcroot") = true ∧
    smallDiskEnv.creatable
      (smallDiskEnv.lookup (smallDiskEnv.lookup exSys.cwd "./srcroot") "version.h") = true ∧
    (main smallDiskEnv exArgv exSys).2.files exTarget =
      some (bytesOf "#ifndef VERSION_H\n#define VERSION_H\n#def") ∧
    (main smallDiskEnv exArgv exSys).2.files exTarget ≠
      some (bytesOf ("#ifndef VERSION_H\n" ++ "#define VERSION_H\n" ++
        "#define DATE \"2024-01-15 10:30:00 3600 (CET)\"\n" ++
        "#define SRC_PREFIX_LENGTH 9\n" ++ "#define VERSION_LOGICIEL \"1.0\"\n" ++
        "#endif\n")) := by
  decide

/-- C2, amended: with two arguments, when the directory is entered and the
file is opened, `main` writes to the stream of the file exactly six texts, each
ended by a newline, in this order: `#ifndef VERSION_H`, `#define VERSION_H`,
`#define DATE "..."`, `#define SRC_PREFIX_LENGTH` followed by a number in
decimal digits, `#define VERSION_LOGICIEL "1.0"` and `#endif`; the header is
these six lines; the file holds the bytes of the header that the device
keeps, and the whole header, nothing else, when the device accepts it.  The
line of `VERSION_LOGICIEL` depends neither on the arguments nor on the time. -/
theorem header_is_six_lines (env : Env) (a0 p n : String) (s : Sys)
    (h1 : env.enterable (env.lookup s.cwd p) = true)
    (h2 : env.creatable (env.lookup (env.lookup s.cwd p) n) = true) :
    written (main env [a0, p, n] s).2.calls = written s.calls ++
      ["#ifndef VERSION_H\n",
       "#define VERSION_H\n",
       "#define DATE \"" ++ dateValue env.now ++ "\"\n",
       "#define SRC_PREFIX_LENGTH " ++ Nat.repr (strlen p) ++ "\n",
       "#define VERSION_LOGICIEL \"1.0\"\n",
       "#endif\n"] ∧
    (∀ c ∈ (Nat.repr (strlen p)).data, c ∈ decimalDigits) ∧
    headerText p env.now =
      "#ifndef VERSION_H\n" ++ "#define VERSION_H\n" ++
        ("#define DATE \"" ++ dateValue env.now ++ "\"\n") ++
        ("#define SRC_PREFIX_LENGTH " ++ Nat.repr (strlen p) ++ "\n") ++
        "#define VERSION_LOGICIEL \"1.0\"\n" ++ "#endif\n" ∧
    (main env [a0, p, n] s).2.files (env.lookup (env.lookup s.cwd p) n) =
      some (kept env (bytesOf (headerText p env.now))) ∧
    (fits env (headerText p env.now) = true →
      (main env [a0, p, n] s).2.files (env.lookup (env.lookup s.cwd p) n) =
        some (bytesOf (headerText p env.now))) := by
  refine ⟨?_, toDigits_mem _, rfl, main_opened_files_kept env a0 p n s h1 h2,
    main_opened_files_target env a0 p n s h1 h2⟩
  rw [main_opened_written env a0 p n s h1 h2]; rfl

/-- C2, witness: the example of the specification. -/
theorem header_is_six_lines_witness :
    exEnv.enterable (exEnv.lookup exSys.cwd "./srcroot") = true ∧
    exEnv.creatable (exEnv.lookup (exEnv.lookup exSys.cwd "./srcroot") "version.h") = true ∧
    fits exEnv (headerText "./srcroot" exEnv.now) = true ∧
    (main exEnv ["version", "./srcroot", "version.h"] exSys).2.files
        (exEnv.lookup (exEnv.lookup exSys.cwd "./srcroot") "version.h") =
      some (bytesOf (headerText "./srcroot" exEnv.now)) :=
  ⟨by decide, by decide, by decide,
    (header_is_six_lines exEnv "version" "./srcroot" "version.h" exSys (by decide)
      (by decide)).2.2.2.2 (by decide)⟩

/-- C3, counterexample: under the zone abbreviation `DATE` the run succeeds
and the file holds `DATE` twice. -/
theorem zone_abbreviation_DATE_is_counted_twice :
    (main dateZoneEnv exArgv exSys).1 = 0 ∧
    (main dateZoneEnv exArgv exSys).2.files exTarget =
      some (bytesOf ("#ifndef VERSION_H\n#define VERSION_H\n" ++
        "#define DATE \"2024-01-15 10:30:00 0000 (DATE)\"\n" ++
        "#define SRC_PREFIX_LENGTH 9\n#define VERSION_LOGICIEL \"1.0\"\n#endif\n")) ∧
    occurrences "DATE" ("#ifndef VERSION_H\n#define VERSION_H\n" ++
        "#define DATE \"2024-01-15 10:30:00 0000 (DATE)\"\n" ++
        "#define SRC_PREFIX_LENGTH 9\n#define VERSION_LOGICIEL \"1.0\"\n#endif\n") = 2 := by
  decide

/-- C3, amended: for a source directory that is entered, an output file that
is opened and a device that accepts the header, `main` returns 0 and the file
holds the header; each of `DATE`, `SRC_PREFIX_LENGTH` and `VERSION_LOGICIEL`
occurs in it once outside the zone abbreviation, that is, once more than in the
zone abbreviation; the text starts with the two opening lines of the include
guard and ends with the line `#endif`. -/
theorem header_names_once_outside_zone (env : Env) (a0 p n : String) (s : Sys)
    (h1 : env.enterable (env.lookup s.cwd p) = true)
    (h2 : env.creatable (env.lookup (env.lookup s.cwd p) n) = true)
    (hfit : fits env (headerText p env.now) = true) :
    (main env [a0, p, n] s).1 = 0 ∧
    (main env [a0, p, n] s).2.files (env.lookup (env.lookup s.cwd p) n) =
      some (bytesOf (headerText p env.now)) ∧
    occurrences "DATE" (headerText p env.now) = 1 + occurrences "DATE" env.now.tm_zone ∧
    occurrences "SRC_PREFIX_LENGTH" (headerText p env.now) =
      1 + occurrences "SRC_PREFIX_LENGTH" env.now.tm_zone ∧
    occurrences "VERSION_LOGICIEL" (headerText p env.now) =
      1 + occurrences "VERSION_LOGICIEL" env.now.tm_zone ∧
    "#ifndef VERSION_H\n#define VERSION_H\n".data <+: (headerText p env.now).data ∧
    "#endif\n".data <:+ (headerText p env.now).data := by
  refine ⟨main_opened_exit env a0 p n s h1 h2, main_opened_files_target env a0 p n s h1 h2 hfit,
    occurrences_DATE p env.now, occurrences_SRC p env.now, occurrences_VERSION p env.now, ?_, ?_⟩
  · refine ⟨(dateLine env.now ++ prefixLine p ++ versionLine ++ "#endif\n").data, ?_⟩
    simp only [headerText, String.data_append, List.append_assoc]
    rfl
  · exact ⟨("#ifndef VERSION_H\n" ++ "#define VERSION_H\n" ++ dateLine env.now ++ prefixLine p ++
      versionLine).data, rfl⟩

/-- C3, witness: the zone abbreviation `CET`, which holds none of the names. -/
theorem header_names_once_outside_zone_witness :
    exEnv.enterable (exEnv.lookup exSys.cwd "./srcroot") = true ∧
    exEnv.creatable (exEnv.lookup (exEnv.lookup exSys.cwd "./srcroot") "version.h") = true ∧
    fits exEnv (headerText "./srcroot" exEnv.now) = true ∧
    occurrences "DATE" exEnv.now.tm_zone = 0 ∧
    occurrences "DATE" (headerText "./srcroot" exEnv.now) =
      1 + occurrences "DATE" exEnv.now.tm_zone :=
  ⟨by decide, by decide, by decide, by decide,
    (header_names_once_outside_zone exEnv "version" "./srcroot" "version.h" exSys (by decide)
      (by decide) (by decide)).2.2.1⟩

/-- C4, counterexample: for the source directory `é`, one character that
UTF-8 encodes in two bytes, the run succeeds and the number written after
`SRC_PREFIX_LENGTH` is 2, not the character count 1. -/
theorem accented_path_is_counted_in_bytes :
    (main exEnv accentArgv exSys).1 = 0 ∧
    written (main exEnv accentArgv exSys).2.calls =
      ["#ifndef VERSION_H\n", "#define VERSION_H\n",
       "#define DATE \"2024-01-15 10:30:00 3600 (CET)\"\n",
       "#define SRC_PREFIX_LENGTH 2\n",
       "#define VERSION_LOGICIEL \"1.0\"\n", "#endif\n"] ∧
    characterCount "é" = 1 ∧
    "#define SRC_PREFIX_LENGTH 2\n" ≠
      "#define SRC_PREFIX_LENGTH " ++ Nat.repr (characterCount "é") ++ "\n" := by
  decide

/-- C4, amended: for every run in which the directory is entered and the file
is opened, `main` returns 0 and the number written after `SRC_PREFIX_LENGTH` is
the decimal rendering of the number of bytes (`strlen`) of the source path as
given on the command line; it is the character count when every character of
the path is ASCII; for the source path `./srcroot` it is 9. -/
theorem prefix_length_is_byte_count (env : Env) (a0 p n : String) (s : Sys)
    (h1 : env.enterable (env.lookup s.cwd p) = true)
    (h2 : env.creatable (env.lookup (env.lookup s.cwd p) n) = true) :
    (main env [a0, p, n] s).1 = 0 ∧
    written (main env [a0, p, n] s).2.calls = written s.calls ++
      ["#ifndef VERSION_H\n", "#define VERSION_H\n", dateLine env.now,
       "#define SRC_PREFIX_LENGTH " ++ Nat.repr p.utf8ByteSize ++ "\n",
       "#define VERSION_LOGICIEL \"1.0\"\n", "#endif\n"] ∧
    ((∀ c ∈ p.data, c.toNat < 128) → p.utf8ByteSize = characterCount p) ∧
    (p = "./srcroot" → Nat.repr p.utf8ByteSize = "9") := by
  refine ⟨main_opened_exit env a0 p n s h1 h2, ?_, strlen_ascii p, ?_⟩
  · rw [main_opened_written env a0 p n s h1 h2]; rfl
  · rintro rfl; decide

/-- C4, witness: the example of the specification, `./srcroot` and
`version.h`. -/
theorem prefix_length_is_byte_count_witness :
    exEnv.enterable (exEnv.lookup exSys.cwd "./srcroot") = true ∧
    exEnv.creatable (exEnv.lookup (exEnv.lookup exSys.cwd "./srcroot") "version.h") = true ∧
    (main exEnv ["version", "./srcroot", "version.h"] exSys).1 = 0 ∧
    Nat.repr "./srcroot".utf8ByteSize = "9" :=
  ⟨by decide, by decide,
    (prefix_length_is_byte_count exEnv "version" "./srcroot" "version.h" exSys (by decide)
      (by decide)).1,
    (prefix_length_is_byte_count exEnv "version" "./srcroot" "version.h" exSys (by decide)
      (by decide)).2.2.2 rfl⟩

/-- C5, counterexample: an offset of 3600 seconds east is written `3600`,
without a sign, and an offset of 300 seconds west is written `-300`, a magnitude
of three digits; the specification describes `+3600` and `-0300`. -/
theorem offset_sign_and_padding :
    dateValue exTm = "2024-01-15 10:30:00 3600 (CET)" ∧
    claimedDateValue exTm = "2024-01-15 10:30:00 +3600 (CET)" ∧
    dateValue exTm ≠ claimedDateValue exTm ∧
    dateValue westTm = "2024-01-15 10:30:00 -300 (XXX)" ∧
    claimedDateValue westTm = "2024-01-15 10:30:00 -0300 (XXX)" ∧
    dateValue westTm ≠ claimedDateValue westTm := by
  decide

/-- C5, amended: for every local time whose fields are in the ranges of
`struct tm` and whose year has four digits, the value of `DATE` is
`YYYY-MM-DD hh:mm:ss offset (zone)`: the year in four digits, month, day, hour,
minute and second in two digits each, and the offset in seconds as `%04ld`
renders it, with a minus sign only when it is negative and zeros up to a total
width of four characters, the sign included. -/
theorem date_value_format (tm : Tm) (h : inCalendar tm) :
    dateValue tm = amendedDateValue tm ∧
    dateLine tm = "#define DATE \"" ++ amendedDateValue tm ++ "\"\n" := by
  obtain ⟨y0, y1, m0, m1, d0, d1, h0, h1, mi0, mi1, s0, s1⟩ := h
  have e : dateValue tm = amendedDateValue tm := by
    unfold dateValue amendedDateValue
    rw [fmtSigned_four _ y0 y1, fmtSigned_two (tm.tm_mon + 1) (by omega) (by omega),
      fmtSigned_two tm.tm_mday (by omega) (by omega),
      fmtSigned_two tm.tm_hour (by omega) (by omega),
      fmtSigned_two tm.tm_min (by omega) (by omega),
      fmtSigned_two tm.tm_sec (by omega) (by omega), fmtSigned_offset]
  exact ⟨e, by rw [dateLine, e]⟩

/-- C5, witness: 15 January 2024, 10:30:00, five minutes west. -/
theorem date_value_format_witness :
    inCalendar westTm ∧ dateValue westTm = amendedDateValue westTm ∧
      amendedDateValue westTm = "2024-01-15 10:30:00 -300 (XXX)" :=
  ⟨by unfold inCalendar; decide,
    (date_value_format westTm (by unfold inCalendar; decide)).1, by decide⟩

/-- C6: with two arguments, when `chdir` to the source path fails, `main`
returns 1, appends to standard error one diagnostic line that holds the source
path as given, writes nothing to standard output, and does not call `fopen`:
its only call on the file system is the failed `chdir`, and no file changes. -/
theorem chdir_failure_is_reported (env : Env) (a0 p n : String) (s : Sys)
    (h : env.enterable (env.lookup s.cwd p) = false) :
    (main env [a0, p, n] s).1 = 1 ∧
    (main env [a0, p, n] s).2.stderr =
      s.stderr ++ ("Cannot change the current directory to \"" ++ p ++ "\"\n") ∧
    (main env [a0, p, n] s).2.stdout = s.stdout ∧
    (main env [a0, p, n] s).2.calls = s.calls ++ [Call.chdir p (-1)] ∧
    opened (main env [a0, p, n] s).2.calls = opened s.calls ∧
    (main env [a0, p, n] s).2.files = s.files ∧
    (main env [a0, p, n] s).2.cwd = s.cwd := by
  rw [main_chdir_fails env a0 p n s h]
  refine ⟨rfl, rfl, rfl, rfl, ?_, rfl, rfl⟩
  simp [eprintf, opened_append, opened]

/-- C6, witness: a source directory that cannot be entered. -/
theorem chdir_failure_is_reported_witness :
    noDirEnv.enterable (noDirEnv.lookup exSys.cwd "./missing") = false ∧
    (main noDirEnv ["version", "./missing", "version.h"] exSys).1 = 1 ∧
    (main noDirEnv ["version", "./missing", "version.h"] exSys).2.stderr =
      "Cannot change the current directory to \"./missing\"\n" :=
  ⟨by decide,
    (chdir_failure_is_reported noDirEnv "version" "./missing" "version.h" exSys (by decide)).1,
    (chdir_failure_is_reported noDirEnv "version" "./missing" "version.h" exSys
      (by decide)).2.1⟩

/-- C7: with two arguments, when the directory is entered and `fopen` of the
output name fails, `main` returns 1, appends to standard error one diagnostic
line that holds the output name and the source path as given, writes nothing
to standard output, and writes no header content: no `fprintf` on a file is
made and no file changes. -/
theorem fopen_failure_is_reported (env : Env) (a0 p n : String) (s : Sys)
    (h1 : env.enterable (env.lookup s.cwd p) = true)
    (h2 : env.creatable (env.lookup (env.lookup s.cwd p) n) = false) :
    (main env [a0, p, n] s).1 = 1 ∧
    (main env [a0, p, n] s).2.stderr =
      s.stderr ++ ("Cannot open the file \"" ++ n ++ "\" for writing (path to \"src\": " ++
        p ++ ").\n") ∧
    (main env [a0, p, n] s).2.stdout = s.stdout ∧
    written (main env [a0, p, n] s).2.calls = written s.calls ∧
    (main env [a0, p, n] s).2.files = s.files := by
  rw [main_fopen_fails env a0 p n s h1 h2]
  refine ⟨rfl, rfl, rfl, ?_, rfl⟩
  simp [eprintf, written_append, written]

/-- C7, witness: an output file that cannot be opened. -/
theorem fopen_failure_is_reported_witness :
    readOnlyEnv.enterable (readOnlyEnv.lookup exSys.cwd "./srcroot") = true ∧
    readOnlyEnv.creatable
      (readOnlyEnv.lookup (readOnlyEnv.lookup exSys.cwd "./srcroot") "version.h") = false ∧
    (main readOnlyEnv ["version", "./srcroot", "version.h"] exSys).1 = 1 ∧
    (main readOnlyEnv ["version", "./srcroot", "version.h"] exSys).2.stderr =
      "Cannot open the file \"version.h\" for writing (path to \"src\": ./srcroot).\n" :=
  ⟨by decide, by decide,
    (fopen_failure_is_reported readOnlyEnv "version" "./srcroot" "version.h" exSys (by decide)
      (by decide)).1,
    (fopen_failure_is_reported readOnlyEnv "version" "./srcroot" "version.h" exSys (by decide)
      (by decide)).2.1⟩

/-- C8, counterexample: on a device that accepts forty bytes, the flush of
`fclose` is cut, `fclose` fails, the file holds forty bytes of the header, and
`main` returns 0. -/
theorem exit_zero_after_failed_writes :
    (main smallDiskEnv exArgv exSys).1 = 0 ∧
    (main smallDiskEnv exArgv exSys).2.calls =
      [Call.chdir "./srcroot" 0,
       Call.fopen "version.h" (some exTarget),
       Call.fprintf exTarget "#ifndef VERSION_H\n" 18,
       Call.fprintf exTarget "#define VERSION_H\n" 18,
       Call.fprintf exTarget "#define DATE \"2024-01-15 10:30:00 3600 (CET)\"\n" 46,
       Call.fprintf exTarget "#define SRC_PREFIX_LENGTH 9\n" 28,
       Call.fprintf exTarget "#define VERSION_LOGICIEL \"1.0\"\n" 31,
       Call.fprintf exTarget "#endif\n" 7,
       Call.fclose exTarget (-1)] ∧
    (main smallDiskEnv exArgv exSys).2.files exTarget =
      some (bytesOf "#ifndef VERSION_H\n#define VERSION_H\n#def") := by
  decide

/-- C8, amended: `main` returns 0 exactly when the command line holds two
arguments, the directory is entered and the output file is opened, and it
returns 1 otherwise; the results of the writes and of the close, which `main`
does not read, have no part in the status. -/
theorem exit_status_characterised (env : Env) (argv : List String) (s : Sys) :
    ((main env argv s).1 = 0 ↔
      argv.length = 3 ∧ env.enterable (env.lookup s.cwd (srcOf argv)) = true ∧
        env.creatable (targetOf env argv s) = true) ∧
    ((main env argv s).1 = 0 ∨ (main env argv s).1 = 1) ∧
    (∀ (q : Option Nat) (c : Bool),
      (main { env with quota := q, closeOk := c } argv s).1 = (main env argv s).1) := by
  refine ⟨main_exit_zero_iff env argv s, main_exit_cases env argv s, ?_⟩
  intro q c
  have i₁ := main_exit_zero_iff env argv s
  have i₂ := main_exit_zero_iff { env with quota := q, closeOk := c } argv s
  rcases main_exit_cases env argv s with h | h <;>
    rcases main_exit_cases { env with quota := q, closeOk := c } argv s with h' | h'
  · rw [h, h']
  · have := i₂.mpr (i₁.mp h); omega
  · have := i₁.mpr (i₂.mp h'); omega
  · rw [h, h']

/-- C9: two runs with the same two arguments that both return 0 and whose
headers the device accepts, at any two local times, leave files that differ in
the line of `DATE` only: the text before it is the opening of the include
guard, the text after it is the line of `SRC_PREFIX_LENGTH`, which depends on
the source path alone, the line of `VERSION_LOGICIEL` and `#endif`. -/
theorem runs_differ_in_DATE_only (env₁ env₂ : Env) (a0 b0 p n : String) (s₁ s₂ : Sys)
    (e₁ : (main env₁ [a0, p, n] s₁).1 = 0) (e₂ : (main env₂ [b0, p, n] s₂).1 = 0)
    (f₁ : fits env₁ (headerText p env₁.now) = true)
    (f₂ : fits env₂ (headerText p env₂.now) = true) :
    (main env₁ [a0, p, n] s₁).2.files (env₁.lookup (env₁.lookup s₁.cwd p) n) =
      some (bytesOf ("#ifndef VERSION_H\n" ++ "#define VERSION_H\n" ++ dateLine env₁.now ++
        ("#define SRC_PREFIX_LENGTH " ++ Nat.repr (strlen p) ++ "\n") ++
        "#define VERSION_LOGICIEL \"1.0\"\n" ++ "#endif\n")) ∧
    (main env₂ [b0, p, n] s₂).2.files (env₂.lookup (env₂.lookup s₂.cwd p) n) =
      some (bytesOf ("#ifndef VERSION_H\n" ++ "#define VERSION_H\n" ++ dateLine env₂.now ++
        ("#define SRC_PREFIX_LENGTH " ++ Nat.repr (strlen p) ++ "\n") ++
        "#define VERSION_LOGICIEL \"1.0\"\n" ++ "#endif\n")) ∧
    (written (main env₁ [a0, p, n] s₁).2.calls).drop (written s₁.calls).length =
      ((written (main env₂ [b0, p, n] s₂).2.calls).drop (written s₂.calls).length).set 2
        (dateLine env₁.now) := by
  obtain ⟨_, a1, a2⟩ := (main_exit_zero_iff env₁ [a0, p, n] s₁).mp e₁
  obtain ⟨_, b1, b2⟩ := (main_exit_zero_iff env₂ [b0, p, n] s₂).mp e₂
  refine ⟨?_, ?_, ?_⟩
  · rw [main_opened_files_target env₁ a0 p n s₁ a1 a2 f₁]; rfl
  · rw [main_opened_files_target env₂ b0 p n s₂ b1 b2 f₂]; rfl
  · rw [main_opened_written env₁ a0 p n s₁ a1 a2, main_opened_written env₂ b0 p n s₂ b1 b2,
      List.drop_left, List.drop_left]
    rfl

/-- C9, witness: the example of the specification run at two local times. -/
theorem runs_differ_in_DATE_only_witness :
    (main exEnv exArgv exSys).1 = 0 ∧ (main dateZoneEnv exArgv oldSys).1 = 0 ∧
    (main exEnv exArgv exSys).2.files exTarget =
      some (bytesOf ("#ifndef VERSION_H\n" ++ "#define VERSION_H\n" ++ dateLine exEnv.now ++
        ("#define SRC_PREFIX_LENGTH " ++ Nat.repr (strlen "./srcroot") ++ "\n") ++
        "#define VERSION_LOGICIEL \"1.0\"\n" ++ "#endif\n")) ∧
    (main dateZoneEnv exArgv oldSys).2.files exTarget =
      some (bytesOf ("#ifndef VERSION_H\n" ++ "#define VERSION_H\n" ++
        dateLine dateZoneEnv.now ++
        ("#define SRC_PREFIX_LENGTH " ++ Nat.repr (strlen "./srcroot") ++ "\n") ++
        "#define VERSION_LOGICIEL \"1.0\"\n" ++ "#endif\n")) :=
  ⟨by decide, by decide,
    (runs_differ_in_DATE_only exEnv dateZoneEnv "version" "version" "./srcroot" "version.h"
      exSys oldSys (by decide) (by decide) (by decide) (by decide)).1,
    (runs_differ_in_DATE_only exEnv dateZoneEnv "version" "version" "./srcroot" "version.h"
      exSys oldSys (by decide) (by decide) (by decide) (by decide)).2.1⟩

/-- C10, counterexample: on a device that accepts forty bytes, a run over an
existing output file returns 0 and leaves in it neither the generated header
nor the previous content: the file holds the first forty bytes of the
header. -/
theorem failed_writes_truncate_the_file :
    (main smallDiskEnv exArgv oldSys).1 = 0 ∧
    oldSys.files exTarget = some (bytesOf "old content\n") ∧
    (main smallDiskEnv exArgv oldSys).2.files exTarget =
      some (bytesOf "#ifndef VERSION_H\n#define VERSION_H\n#def") ∧
    (main smallDiskEnv exArgv oldSys).2.files exTarget ≠
      some (bytesOf (headerText "./srcroot" smallDiskEnv.now)) ∧
    (main smallDiskEnv exArgv oldSys).2.files exTarget ≠ oldSys.files exTarget := by
  decide

/-- C10, amended: over a file system that maps each file, named by its
identity, to its content, a run changes the content of no file other than the
one the output name leads to from the source directory; a run returns 0
exactly when it has two arguments, enters the directory and opens the file,
and it then leaves in that file, whatever it held before, the bytes of the
generated header that the device keeps: the whole header when the device
accepts it, and otherwise its first bytes up to the limit of the device, fewer
than the header has; a run that returns a status other than 0 changes no file
content. -/
theorem only_the_output_file_changes (env : Env) (argv : List String) (s : Sys) :
    (∀ f, f ≠ targetOf env argv s → (main env argv s).2.files f = s.files f) ∧
    ((main env argv s).1 = 0 ↔
      argv.length = 3 ∧ env.enterable (env.lookup s.cwd (srcOf argv)) = true ∧
        env.creatable (targetOf env argv s) = true) ∧
    ((main env argv s).1 = 0 →
      (main env argv s).2.files (targetOf env argv s) =
        some (kept env (bytesOf (headerText (srcOf argv) env.now)))) ∧
    ((main env argv s).1 = 0 → fits env (headerText (srcOf argv) env.now) = true →
      (main env argv s).2.files (targetOf env argv s) =
        some (bytesOf (headerText (srcOf argv) env.now))) ∧
    ((main env argv s).1 = 0 → fits env (headerText (srcOf argv) env.now) = false →
      ∃ q, env.quota = some q ∧ q < (bytesOf (headerText (srcOf argv) env.now)).length ∧
        (main env argv s).2.files (targetOf env argv s) =
          some ((bytesOf (headerText (srcOf argv) env.now)).take q)) ∧
    ((main env argv s).1 ≠ 0 → (main env argv s).2.files = s.files) := by
  have key : (main env argv s).1 = 0 →
      (main env argv s).2.files (targetOf env argv s) =
        some (kept env (bytesOf (headerText (srcOf argv) env.now))) := by
    intro h
    have h3 := (main_exit_zero_iff env argv s).mp h
    match argv, h3 with
    | [a0, p, n], ⟨_, h1, h2⟩ => exact main_opened_files_kept env a0 p n s h1 h2
  refine ⟨fun f hf => main_files_other env argv s f hf, main_exit_zero_iff env argv s, key,
    ?_, ?_, main_files_unchanged_of_fail env argv s⟩
  · intro h hfit
    rw [key h, kept_of_accepts env _ hfit]
  · intro h hfit
    obtain ⟨q, hq, hlt, hk⟩ := kept_of_not_accepts env _ hfit
    exact ⟨q, hq, hlt, by rw [key h, hk]⟩

/-- C10, witness: the example of the specification over an existing file, on
a device without limit, on a device that accepts forty bytes, and with a
directory that cannot be entered. -/
theorem only_the_output_file_changes_witness :
    (main exEnv exArgv oldSys).1 = 0 ∧
    fits exEnv (headerText "./srcroot" exEnv.now) = true ∧
    oldSys.files exTarget = some (bytesOf "old content\n") ∧
    (main exEnv exArgv oldSys).2.files exTarget =
      some (bytesOf (headerText "./srcroot" exEnv.now)) ∧
    (main smallDiskEnv exArgv oldSys).1 = 0 ∧
    (main smallDiskEnv exArgv oldSys).2.files exTarget =
      some (kept smallDiskEnv (bytesOf (headerText "./srcroot" smallDiskEnv.now))) ∧
    (main noDirEnv exArgv oldSys).1 ≠ 0 ∧
    (main noDirEnv exArgv oldSys).2.files = oldSys.files :=
  ⟨by decide, by decide, by decide,
    (only_the_output_file_changes exEnv exArgv oldSys).2.2.2.1 (by decide) (by decide),
    by decide,
    (only_the_output_file_changes smallDiskEnv exArgv oldSys).2.2.1 (by decide),
    by decide,
    (only_the_output_file_changes noDirEnv exArgv oldSys).2.2.2.2.2 (by decide)⟩

end Version
